import Mathlib

/-!
Verification of the transwarp task queue module, task.py, against its
specification. Timestamps are modelled as integers (whole seconds, so the
millisecond prefix of an identifier is the timestamp times 1000 exactly),
the random draw of the retry sleep as a rational, the task table as a list
of rows, and each SQL statement as the corresponding pure operation on the
list. Raised exceptions are modelled as outcome constructors, and the
identifier generator and the random source are passed in as explicit
inputs.
-/

namespace Transwarp

/-- The four task statuses of task.py: pending, executing, done, error. -/
inductive Status
  | pending
  | executing
  | done
  | error
deriving DecidableEq, Repr

/-- One row of the tasks table, with the columns used by task.py. -/
structure Task where
  id : String
  queue : String
  name : String
  callback : String
  timeout : Int
  status : Status
  max_retry : Int
  retried : Int
  creation_time : Int
  execution_id : String
  execution_plan_time : Int
  execution_start_time : Int
  execution_end_time : Int
  execution_expired_time : Int
  version : Int
  task_data : String
  task_result : String
deriving DecidableEq, Repr

/-- The tasks table: a list of rows. -/
abbrev TaskDb := List Task

/-- The default queue name of task.py. -/
def _DEFAULT_QUEUE : String := "default"

/-- Zero-padding to width 15, matching the %015d format of db.next_str for
nonnegative values (time.time() is nonnegative). -/
def pad15 (s : String) : String :=
  String.mk (List.replicate (15 - s.length) '0') ++ s

/-- db.next_str: the 15-character zero-padded millisecond timestamp int(t *
1000) (exactly t * 1000 on whole-second timestamps), followed by the
32-character random uuid4 hex (passed in explicitly) and "000". -/
def next_str (t : Int) (uuidHex : String) : String :=
  pad15 (toString (t * 1000)) ++ uuidHex ++ "000"

/-- Lookup of the first row with a given id, as select ... where id=? does. -/
def findRow (db : TaskDb) (task_id : String) : Option Task :=
  db.find? (fun t => t.id == task_id)

/-- Python str.startswith: the pattern character sequence is a prefix of
the string. Stated on the character lists, which is the same relation as
String.startsWith but reduces. -/
def strStartsWith (s p : String) : Bool :=
  p.data.isPrefixOf s.data

/-- The callback scheme test of create_task. -/
def startsWithHttp (callback : String) : Bool :=
  strStartsWith callback "http://" || strStartsWith callback "https://"

/-- Result of create_task: the new id on success, or the structured error
dict with its error and description fields. -/
inductive CreateResult
  | ok (id : String)
  | err (error description : String)
deriving DecidableEq, Repr

/-- create_task of task.py. The current time and the random uuid hex used by
db.next_str are explicit inputs; the returned table is the table after the
insert, left unchanged on a validation error. -/
def create_task (db : TaskDb) (now : Int) (uuidHex : String)
    (queue name : String) (task_data : String) (callback : Option String)
    (max_retry : Int) (execution_plan_time : Option Int) (timeout : Int) :
    TaskDb × CreateResult :=
  let queue := if queue = "" then _DEFAULT_QUEUE else queue
  let name := if name = "" then "unamed" else name
  let callback := callback.getD ""
  if callback ≠ "" ∧ startsWithHttp callback = false then
    (db, CreateResult.err "cannot_create_task" "invalid callback")
  else
    let max_retry := if max_retry < 0 then 0 else max_retry
    if timeout ≤ 0 then
      (db, CreateResult.err "cannot_create_task" "invalid timeout")
    else
      let execution_plan_time := execution_plan_time.getD now
      let task : Task :=
        { id := next_str now uuidHex
          queue := queue
          name := name
          callback := callback
          timeout := timeout
          status := Status.pending
          max_retry := max_retry
          retried := 0
          creation_time := now
          execution_id := ""
          execution_plan_time := execution_plan_time
          execution_start_time := 0
          execution_end_time := 0
          execution_expired_time := 0
          version := 0
          task_data := task_data
          task_result := "null" }
      (db ++ [task], CreateResult.ok task.id)

/-- Row eligibility in the candidate query of _do_fetch_task:
execution_plan_time strictly before the current time, the given queue, and
status pending. -/
def eligible (queue : String) (current : Int) (t : Task) : Bool :=
  decide (t.execution_plan_time < current) && t.queue == queue
    && t.status == Status.pending

/-- First row of minimal execution_plan_time, modelling a stable
order by execution_plan_time followed by limit 1. -/
def firstMinPlan : List Task → Option Task
  | [] => none
  | t :: ts =>
    match firstMinPlan ts with
    | none => some t
    | some u => if u.execution_plan_time < t.execution_plan_time then some u else some t

/-- The candidate selection transaction of _do_fetch_task. -/
def select_candidate (db : TaskDb) (queue : String) (current : Int) : Option Task :=
  firstMinPlan (db.filter (eligible queue current))

/-- The row condition of the compare-and-swap update: id and version both
match the values read during candidate selection. -/
def cas_matches (task_id : String) (v : Int) (t : Task) : Bool :=
  t.id == task_id && t.version == v

/-- The set clause of the compare-and-swap update of _do_fetch_task. -/
def claim_update (current : Int) (eid : String) (expires : Int) (t : Task) : Task :=
  { t with
    status := Status.executing
    execution_id := eid
    execution_start_time := current
    execution_expired_time := expires
    version := t.version + 1 }

/-- An update ... where id=? and version=? statement: applies the set clause
to every matching row and returns the affected row count. -/
def cas_update (db : TaskDb) (task_id : String) (v : Int) (f : Task → Task) :
    TaskDb × Nat :=
  (db.map (fun t => if cas_matches task_id v t then f t else t),
   (db.filter (cas_matches task_id v)).length)

/-- The Dict returned by a successful _do_fetch_task, with its six keys. -/
structure FetchResult where
  id : String
  execution_id : String
  queue : String
  name : String
  task_data : String
  version : Int
deriving DecidableEq, Repr

/-- Outcome of one _do_fetch_task call: None, a raised ConflictError, or the
fetched task data. -/
inductive FetchOutcome
  | noTask
  | conflict
  | fetched (r : FetchResult)
deriving DecidableEq, Repr

/-- _do_fetch_task of task.py. The candidate select and the compare-and-swap
update run in two separate transactions; the interfere input is the table
rewrite performed by concurrent claimants in the window between them (id for
a quiescent system). The fresh claim token eid stands for the db.next_str
call. -/
def _do_fetch_task (db : TaskDb) (queue : String) (current : Int) (eid : String)
    (interfere : TaskDb → TaskDb) : TaskDb × FetchOutcome :=
  match select_candidate db queue current with
  | none => (db, FetchOutcome.noTask)
  | some task =>
    let expires := current + task.timeout
    let db1 := interfere db
    let p := cas_update db1 task.id task.version (claim_update current eid expires)
    if p.2 = 0 then (p.1, FetchOutcome.conflict)
    else
      (p.1, FetchOutcome.fetched
        { id := task.id
          execution_id := eid
          queue := task.queue
          name := task.name
          task_data := task.task_data
          version := task.version + 1 })

/-- The per-attempt environment of the fetch_task retry loop: the current
time, the fresh claim token, the random.random() draw used for the sleep if
the attempt conflicts, and the concurrent interference. -/
structure Attempt where
  current : Int
  eid : String
  rand : Rat
  interfere : TaskDb → TaskDb

/-- The retry loop body of fetch_task: each attempt returns immediately on
None or on a fetched task; a ConflictError is caught, a sleep of rand / 4
seconds is recorded, and the next attempt runs. Returns the final table, the
result, the list of sleeps performed, and the number of attempts made. -/
def fetch_task_go : TaskDb → String → List Attempt →
    TaskDb × Option FetchResult × List Rat × Nat
  | db, _, [] => (db, none, [], 0)
  | db, q, a :: rest =>
    match _do_fetch_task db q a.current a.eid a.interfere with
    | (db1, FetchOutcome.noTask) => (db1, none, [], 1)
    | (db1, FetchOutcome.fetched r) => (db1, some r, [], 1)
    | (db1, FetchOutcome.conflict) =>
      let p := fetch_task_go db1 q rest
      (p.1, p.2.1, a.rand / 4 :: p.2.2.1, p.2.2.2 + 1)

/-- fetch_task of task.py: defaults the queue and runs at most three
attempts of _do_fetch_task. -/
def fetch_task (db : TaskDb) (queue : String) (a1 a2 a3 : Attempt) :
    TaskDb × Option FetchResult × List Rat × Nat :=
  let q := if queue = "" then _DEFAULT_QUEUE else queue
  fetch_task_go db q [a1, a2, a3]

/-- Outcome of set_task_result: success, or the modelled exception — the
select returning no row, or one of the two raised TaskError protocol
violations. -/
inductive ResultOutcome
  | ok
  | taskNotFound
  | executionIdMismatch
  | statusNotExecuting
deriving DecidableEq, Repr

/-- set_task_result of task.py: looks up the row, raises on a claim token
mismatch, then on a status other than executing, and otherwise applies the
update computed from the row that was read to every row with the given id. -/
def set_task_result (db : TaskDb) (task_id eid : String) (success : Bool)
    (task_result : String) : TaskDb × ResultOutcome :=
  match findRow db task_id with
  | none => (db, ResultOutcome.taskNotFound)
  | some task =>
    if task.execution_id ≠ eid then (db, ResultOutcome.executionIdMismatch)
    else if task.status ≠ Status.executing then (db, ResultOutcome.statusNotExecuting)
    else
      let f : Task → Task :=
        if success then
          fun t => { t with status := Status.done, task_result := task_result }
        else
          fun t =>
            { t with
              retried := task.retried + 1
              status := if task.retried ≥ task.max_retry then Status.error
                        else Status.pending }
      (db.map (fun t => if t.id == task_id then f t else t), ResultOutcome.ok)

/-- The delete condition of cleanup: status done and execution_end_time
strictly before the cutoff. -/
def doneAndExpiredB (cutoff : Int) (t : Task) : Bool :=
  t.status == Status.done && decide (t.execution_end_time < cutoff)

/-- cleanup of task.py: deletes every row with status done and
execution_end_time before now minus days of seconds. The queue argument of
the Python signature does not appear in the executed SQL, so it is unused
here as well. Returns the remaining table and the deleted row count. -/
def cleanup (db : TaskDb) (now : Int) (queue : Option String) (days : Int) :
    TaskDb × Nat :=
  let done_time := now - days * 86400
  (db.filter (fun t => !(doneAndExpiredB done_time t)),
   (db.filter (doneAndExpiredB done_time)).length)

/-! Concrete rows shared by the counterexamples and witnesses below. -/

/-- A pending base row. -/
def baseTask : Task :=
  { id := "t1", queue := "q", name := "n", callback := "", timeout := 10,
    status := Status.pending, max_retry := 3, retried := 0, creation_time := 0,
    execution_id := "", execution_plan_time := 0, execution_start_time := 0,
    execution_end_time := 0, execution_expired_time := 0, version := 0,
    task_data := "d", task_result := "null" }

/-- A pending row whose plan time sits exactly at the current time 5. -/
def boundaryTask : Task :=
  { baseTask with execution_plan_time := 5 }

/-! Properties of candidate selection. -/

theorem firstMinPlan_eq_none : ∀ {l : List Task}, firstMinPlan l = none → l = [] := by
  intro l h
  cases l with
  | nil => rfl
  | cons a as =>
    cases hm : firstMinPlan as with
    | none => simp only [firstMinPlan, hm] at h; exact absurd h (by simp)
    | some u => simp only [firstMinPlan, hm] at h; split at h <;> simp at h

theorem firstMinPlan_mem : ∀ {l : List Task} {t : Task}, firstMinPlan l = some t → t ∈ l := by
  intro l
  induction l with
  | nil => intro t h; simp [firstMinPlan] at h
  | cons a as ih =>
    intro t h
    cases hm : firstMinPlan as with
    | none =>
      simp only [firstMinPlan, hm] at h
      injection h with h
      exact h ▸ List.mem_cons_self a as
    | some u =>
      simp only [firstMinPlan, hm] at h
      by_cases hlt : u.execution_plan_time < a.execution_plan_time
      · rw [if_pos hlt] at h
        injection h with h
        exact List.mem_cons_of_mem a (h ▸ ih hm)
      · rw [if_neg hlt] at h
        injection h with h
        exact h ▸ List.mem_cons_self a as

theorem firstMinPlan_le : ∀ {l : List Task} {t : Task}, firstMinPlan l = some t →
    ∀ u ∈ l, t.execution_plan_time ≤ u.execution_plan_time := by
  intro l
  induction l with
  | nil => intro t h; simp [firstMinPlan] at h
  | cons a as ih =>
    intro t h v hv
    cases hm : firstMinPlan as with
    | none =>
      simp only [firstMinPlan, hm] at h
      injection h with h
      rcases List.mem_cons.mp hv with hva | hvas
      · rw [h] at hva; rw [hva]
      · rw [firstMinPlan_eq_none hm] at hvas; simp at hvas
    | some u =>
      simp only [firstMinPlan, hm] at h
      by_cases hlt : u.execution_plan_time < a.execution_plan_time
      · rw [if_pos hlt] at h
        injection h with h
        rcases List.mem_cons.mp hv with hva | hvas
        · rw [← h, hva]; exact le_of_lt hlt
        · exact h ▸ ih hm v hvas
      · rw [if_neg hlt] at h
        injection h with h
        rcases List.mem_cons.mp hv with hva | hvas
        · rw [← h, hva]
        · exact h ▸ le_trans (le_of_not_lt hlt) (ih hm v hvas)

theorem eligible_iff (q : String) (cur : Int) (t : Task) :
    eligible q cur t = true ↔
      t.execution_plan_time < cur ∧ t.queue = q ∧ t.status = Status.pending := by
  simp [eligible, and_assoc]

theorem select_candidate_none {db : TaskDb} {q : String} {cur : Int}
    (h : ∀ t ∈ db, eligible q cur t = false) : select_candidate db q cur = none := by
  unfold select_candidate
  have hnil : db.filter (eligible q cur) = [] := by
    rw [List.filter_eq_nil_iff]
    intro t ht
    simp [h t ht]
  rw [hnil]
  rfl

theorem select_candidate_spec {db : TaskDb} {q : String} {cur : Int} {t : Task}
    (h : select_candidate db q cur = some t) :
    t ∈ db ∧ eligible q cur t = true ∧
      ∀ u ∈ db, eligible q cur u = true → t.execution_plan_time ≤ u.execution_plan_time := by
  unfold select_candidate at h
  have hmem := firstMinPlan_mem h
  have hmin := firstMinPlan_le h
  rw [List.mem_filter] at hmem
  exact ⟨hmem.1, hmem.2, fun u hu he => hmin u (List.mem_filter.mpr ⟨hu, he⟩)⟩

/-- C2 counterexample: a pending row of the requested queue whose
execution_plan_time equals the current time satisfies the less-or-equal
condition stated in the claim, yet _do_fetch_task reports no task available,
because the candidate query compares execution_plan_time with strict
less-than. -/
theorem fetch_boundary_row_not_selected :
    boundaryTask.queue = "q" ∧ boundaryTask.status = Status.pending ∧
      boundaryTask.execution_plan_time ≤ 5 ∧
      _do_fetch_task [boundaryTask] "q" 5 "E" id = ([boundaryTask], FetchOutcome.noTask) := by
  decide

/-- C2 (amended): candidate selection picks, among the rows of the given
queue with status pending and execution_plan_time strictly before the
current time (the code compares with strict less-than, not less-or-equal), a
row of minimal execution_plan_time; when no such row exists the attempt
returns the no-task outcome with the table unchanged, performing no update. -/
theorem fetch_candidate_selection (db : TaskDb) (q : String) (cur : Int) (eid : String)
    (interfere : TaskDb → TaskDb) :
    ((∀ t ∈ db, ¬(t.execution_plan_time < cur ∧ t.queue = q ∧ t.status = Status.pending)) →
      _do_fetch_task db q cur eid interfere = (db, FetchOutcome.noTask)) ∧
    (∀ t, select_candidate db q cur = some t →
      t ∈ db ∧ t.execution_plan_time < cur ∧ t.queue = q ∧ t.status = Status.pending ∧
        ∀ u ∈ db, u.execution_plan_time < cur → u.queue = q → u.status = Status.pending →
          t.execution_plan_time ≤ u.execution_plan_time) := by
  constructor
  · intro h
    have hnone : select_candidate db q cur = none := by
      apply select_candidate_none
      intro t ht
      rw [← Bool.not_eq_true, eligible_iff]
      exact h t ht
    unfold _do_fetch_task
    rw [hnone]
  · intro t h
    obtain ⟨hmem, helig, hmin⟩ := select_candidate_spec h
    rw [eligible_iff] at helig
    exact ⟨hmem, helig.1, helig.2.1, helig.2.2, fun u hu h1 h2 h3 =>
      hmin u hu ((eligible_iff q cur u).mpr ⟨h1, h2, h3⟩)⟩

/-- C2 witness: with the single boundary row nothing is eligible, and the
fetch attempt reports no task with the table unchanged. -/
theorem fetch_candidate_selection_witness :
    _do_fetch_task [boundaryTask] "q" 5 "E2" id = ([boundaryTask], FetchOutcome.noTask) :=
  (fetch_candidate_selection [boundaryTask] "q" 5 "E2" id).1 (by decide)

/-! The compare-and-swap claim. -/

theorem cas_matches_iff (task_id : String) (v : Int) (t : Task) :
    cas_matches task_id v t = true ↔ t.id = task_id ∧ t.version = v := by
  simp [cas_matches]

theorem _do_fetch_task_some {db : TaskDb} {q : String} {cur : Int} {eid : String}
    {interfere : TaskDb → TaskDb} {t : Task} (hsel : select_candidate db q cur = some t) :
    _do_fetch_task db q cur eid interfere =
      if ((interfere db).filter (cas_matches t.id t.version)).length = 0
      then ((cas_update (interfere db) t.id t.version
              (claim_update cur eid (cur + t.timeout))).1, FetchOutcome.conflict)
      else ((cas_update (interfere db) t.id t.version
              (claim_update cur eid (cur + t.timeout))).1,
            FetchOutcome.fetched
              { id := t.id, execution_id := eid, queue := t.queue, name := t.name,
                task_data := t.task_data, version := t.version + 1 }) := by
  unfold _do_fetch_task
  rw [hsel]
  rfl

/-- Fields written and fields preserved by a successful compare-and-swap
claim on one matched row u, rewritten to u2. -/
def claimed_row_spec (current : Int) (eid : String) (expires : Int) (u u2 : Task) : Prop :=
  u2.status = Status.executing ∧ u2.execution_id = eid ∧
  u2.execution_start_time = current ∧ u2.execution_expired_time = expires ∧
  u2.version = u.version + 1 ∧ u2.id = u.id ∧ u2.queue = u.queue ∧ u2.name = u.name ∧
  u2.task_data = u.task_data ∧ u2.retried = u.retried ∧ u2.max_retry = u.max_retry ∧
  u2.execution_plan_time = u.execution_plan_time ∧
  u2.execution_end_time = u.execution_end_time

/-- What a successful claim guarantees, given the selected candidate t: the
returned Dict carries the id, queue, name and task_data of t together with
the fresh token and version t.version + 1; the table rewrite is exactly the
compare-and-swap conditioned on id and version both matching the values read
at selection; at least one row matched it; and every matched row now has
status executing, the fresh token, the new start and expiry times, and its
version incremented by exactly one. -/
def claim_ok_spec (db : TaskDb) (cur : Int) (eid : String) (interfere : TaskDb → TaskDb)
    (db2 : TaskDb) (r : FetchResult) (t : Task) : Prop :=
  r = { id := t.id, execution_id := eid, queue := t.queue, name := t.name,
        task_data := t.task_data, version := t.version + 1 } ∧
  db2 = (interfere db).map (fun u => if cas_matches t.id t.version u
          then claim_update cur eid (cur + t.timeout) u else u) ∧
  (∃ u ∈ interfere db, u.id = t.id ∧ u.version = t.version) ∧
  (∀ u ∈ interfere db, u.id = t.id → u.version = t.version →
    claim_update cur eid (cur + t.timeout) u ∈ db2 ∧
    claimed_row_spec cur eid (cur + t.timeout) u
      (claim_update cur eid (cur + t.timeout) u))

/-- C1: a successful claim performs the compare-and-swap conditioned on the
row id and the version read during candidate selection, writing status
executing, the fresh claim token, the start time, the expiry time now plus
timeout, and version plus one, and returns the id, queue, name and
task_data of the task together with the new version (old plus one) and the
token; so each successful claim of a task increases its version by exactly
one. -/
theorem claim_cas_success (db : TaskDb) (q : String) (cur : Int) (eid : String)
    (interfere : TaskDb → TaskDb) (db2 : TaskDb) (r : FetchResult)
    (h : _do_fetch_task db q cur eid interfere = (db2, FetchOutcome.fetched r)) :
    ∃ t, select_candidate db q cur = some t ∧ claim_ok_spec db cur eid interfere db2 r t := by
  cases hsel : select_candidate db q cur with
  | none =>
    unfold _do_fetch_task at h
    rw [hsel] at h
    simp [Prod.mk.injEq] at h
  | some t =>
    refine ⟨t, rfl, ?_⟩
    rw [_do_fetch_task_some hsel] at h
    by_cases hz : ((interfere db).filter (cas_matches t.id t.version)).length = 0
    · rw [if_pos hz] at h
      simp [Prod.mk.injEq] at h
    · rw [if_neg hz] at h
      rw [Prod.mk.injEq] at h
      obtain ⟨hdb2, hr⟩ := h
      injection hr with hr
      refine ⟨hr.symm, ?_, ?_, ?_⟩
      · rw [← hdb2]
        rfl
      · have hne : (interfere db).filter (cas_matches t.id t.version) ≠ [] := by
          intro hc
          exact hz (by rw [hc]; rfl)
        obtain ⟨u, hu⟩ := List.exists_mem_of_ne_nil _ hne
        rw [List.mem_filter] at hu
        exact ⟨u, hu.1, (cas_matches_iff t.id t.version u).mp hu.2⟩
      · intro u hu hid hver
        have hmatch : cas_matches t.id t.version u = true :=
          (cas_matches_iff t.id t.version u).mpr ⟨hid, hver⟩
        constructor
        · rw [← hdb2]
          show claim_update cur eid (cur + t.timeout) u ∈ (interfere db).map _
          have := List.mem_map_of_mem
            (fun v => if cas_matches t.id t.version v
              then claim_update cur eid (cur + t.timeout) v else v) hu
          simpa [hmatch] using this
        · exact ⟨rfl, rfl, rfl, rfl, rfl, rfl, rfl, rfl, rfl, rfl, rfl, rfl, rfl⟩

/-- A pending row with plan time 1, claimed at time 2 with token E1. -/
def pendingAt1 : Task :=
  { baseTask with execution_plan_time := 1 }

/-- The row pendingAt1 after a claim at time 2 with token E1. -/
def claimedPendingAt1 : Task :=
  claim_update 2 "E1" 12 pendingAt1

/-- The Dict returned by that claim. -/
def fetchedPendingAt1 : FetchResult :=
  { id := "t1", execution_id := "E1", queue := "q", name := "n", task_data := "d",
    version := 1 }

/-- C1 witness: the claim theorem applied to a concrete one-row table with a
quiescent system. -/
theorem claim_cas_success_witness :
    ∃ t, select_candidate [pendingAt1] "q" 2 = some t ∧
      claim_ok_spec [pendingAt1] 2 "E1" id [claimedPendingAt1] fetchedPendingAt1 t :=
  claim_cas_success [pendingAt1] "q" 2 "E1" id [claimedPendingAt1] fetchedPendingAt1
    (by decide)

/-! The retry loop of fetch_task. -/

theorem fetch_task_ne_empty {q : String} (hq : q ≠ "") (db : TaskDb) (a1 a2 a3 : Attempt) :
    fetch_task db q a1 a2 a3 = fetch_task_go db q [a1, a2, a3] := by
  unfold fetch_task
  rw [if_neg hq]

theorem fetch_task_go_tries (db : TaskDb) (q : String) (as : List Attempt) :
    (fetch_task_go db q as).2.2.2 ≤ as.length := by
  induction as generalizing db with
  | nil => simp [fetch_task_go]
  | cons a rest ih =>
    simp only [fetch_task_go]
    split
    · simp
    · simp
    · exact Nat.succ_le_succ (ih _)

theorem fetch_task_go_sleeps (db : TaskDb) (q : String) (as : List Attempt) :
    ∀ s ∈ (fetch_task_go db q as).2.2.1, ∃ a ∈ as, s = a.rand / 4 := by
  induction as generalizing db with
  | nil => intro s hs; simp [fetch_task_go] at hs
  | cons a rest ih =>
    intro s hs
    simp only [fetch_task_go] at hs
    split at hs
    · simp at hs
    · simp at hs
    · simp only [List.mem_cons] at hs
      rcases hs with rfl | hs
      · exact ⟨a, List.mem_cons_self a _, rfl⟩
      · obtain ⟨b, hb, rfl⟩ := ih _ s hs
        exact ⟨b, List.mem_cons_of_mem a hb, rfl⟩

/-- The guarantees of one fetch_task call: at most three attempts run; every
sleep performed is random.random() / 4 seconds, a duration at least zero and
strictly below a quarter second; when all three attempts hit a conflict the
call returns None after the three sleeps; and when nothing is eligible at
the first attempt the call returns None immediately with the table
unchanged — the same no-task value in both cases. -/
def fetch_retry_spec (db : TaskDb) (q : String) (a1 a2 a3 : Attempt) : Prop :=
  (fetch_task db q a1 a2 a3).2.2.2 ≤ 3 ∧
  (∀ s ∈ (fetch_task db q a1 a2 a3).2.2.1, 0 ≤ s ∧ s < 1 / 4) ∧
  (∀ db1 db2 db3,
    _do_fetch_task db q a1.current a1.eid a1.interfere = (db1, FetchOutcome.conflict) →
    _do_fetch_task db1 q a2.current a2.eid a2.interfere = (db2, FetchOutcome.conflict) →
    _do_fetch_task db2 q a3.current a3.eid a3.interfere = (db3, FetchOutcome.conflict) →
    fetch_task db q a1 a2 a3 = (db3, none, [a1.rand / 4, a2.rand / 4, a3.rand / 4], 3)) ∧
  ((∀ t ∈ db, eligible q a1.current t = false) →
    fetch_task db q a1 a2 a3 = (db, none, [], 1))

/-- C6: fetch_task runs the claim cycle at most 3 times; a ConflictError is
always caught internally and never reaches the caller: after each conflict
the loop sleeps a random duration of at least zero and strictly less than a
quarter second, and after three conflicted attempts fetch_task returns
None, the same no-task value it returns when the queue holds nothing
eligible. -/
theorem fetch_retry_policy (db : TaskDb) (q : String) (a1 a2 a3 : Attempt)
    (hq : q ≠ "") (h1 : 0 ≤ a1.rand ∧ a1.rand < 1) (h2 : 0 ≤ a2.rand ∧ a2.rand < 1)
    (h3 : 0 ≤ a3.rand ∧ a3.rand < 1) :
    fetch_retry_spec db q a1 a2 a3 := by
  unfold fetch_retry_spec
  refine ⟨?_, ?_, ?_, ?_⟩
  · rw [fetch_task_ne_empty hq]
    exact fetch_task_go_tries db q [a1, a2, a3]
  · intro s hs
    rw [fetch_task_ne_empty hq] at hs
    obtain ⟨a, ha, rfl⟩ := fetch_task_go_sleeps db q [a1, a2, a3] s hs
    have hr : 0 ≤ a.rand ∧ a.rand < 1 := by
      simp only [List.mem_cons, List.not_mem_nil, or_false] at ha
      rcases ha with rfl | rfl | rfl
      exacts [h1, h2, h3]
    constructor
    · linarith [hr.1]
    · linarith [hr.2]
  · intro db1 db2 db3 hc1 hc2 hc3
    rw [fetch_task_ne_empty hq]
    simp only [fetch_task_go, hc1, hc2, hc3]
  · intro h
    have hnone : select_candidate db q a1.current = none := select_candidate_none h
    have hdo : _do_fetch_task db q a1.current a1.eid a1.interfere
        = (db, FetchOutcome.noTask) := by
      unfold _do_fetch_task
      rw [hnone]
    rw [fetch_task_ne_empty hq]
    simp only [fetch_task_go, hdo]

/-- An attempt against a quiescent system with a zero random draw. -/
def quietAttempt : Attempt :=
  { current := 5, eid := "E", rand := 0, interfere := id }

/-- C6 witness: the retry policy at a concrete queue name and attempts. -/
theorem fetch_retry_policy_witness :
    fetch_retry_spec [] "q" quietAttempt quietAttempt quietAttempt :=
  fetch_retry_policy [] "q" quietAttempt quietAttempt quietAttempt (by decide)
    (by decide) (by decide) (by decide)

/-! Result reporting. -/

theorem set_task_result_success_eq {db : TaskDb} {tid eid : String} {task : Task}
    (hf : findRow db tid = some task) (he : task.execution_id = eid)
    (hs : task.status = Status.executing) (res : String) :
    set_task_result db tid eid true res =
      (db.map (fun t => if t.id == tid then
          { t with status := Status.done, task_result := res } else t),
       ResultOutcome.ok) := by
  simp only [set_task_result, hf]
  rw [if_neg (by simp [he]), if_neg (by simp [hs])]
  rfl

theorem set_task_result_failure_eq {db : TaskDb} {tid eid : String} {task : Task}
    (hf : findRow db tid = some task) (he : task.execution_id = eid)
    (hs : task.status = Status.executing) (res : String) :
    set_task_result db tid eid false res =
      (db.map (fun t => if t.id == tid then
          { t with retried := task.retried + 1,
                   status := if task.retried ≥ task.max_retry then Status.error
                             else Status.pending } else t),
       ResultOutcome.ok) := by
  simp only [set_task_result, hf]
  rw [if_neg (by simp [he]), if_neg (by simp [hs])]
  rfl

/-- The two protocol guards of set_task_result: a claim token different from
the execution_id of the row fails with the token-mismatch error; a matching
token on a row not in executing state fails with the status error; in every
such case the table is returned unchanged and the error is the outcome
itself, not absorbed. -/
def report_guard_spec (db : TaskDb) (tid eid : String) (success : Bool) (res : String)
    (task : Task) : Prop :=
  (task.execution_id ≠ eid →
    set_task_result db tid eid success res = (db, ResultOutcome.executionIdMismatch)) ∧
  (task.execution_id = eid → task.status ≠ Status.executing →
    set_task_result db tid eid success res = (db, ResultOutcome.statusNotExecuting)) ∧
  (task.status ≠ Status.executing →
    (set_task_result db tid eid success res).1 = db ∧
    ((set_task_result db tid eid success res).2 = ResultOutcome.executionIdMismatch ∨
     (set_task_result db tid eid success res).2 = ResultOutcome.statusNotExecuting))

/-- C5: set_task_result raises the protocol-violation TaskError when the
supplied claim token differs from the current execution_id of the row, and
when the row status is not executing; in both cases the row is left
entirely unchanged and the error is the outcome delivered to the caller. -/
theorem report_guards (db : TaskDb) (tid eid : String) (success : Bool) (res : String)
    (task : Task) (hf : findRow db tid = some task) :
    report_guard_spec db tid eid success res task := by
  unfold report_guard_spec
  have hmis : task.execution_id ≠ eid →
      set_task_result db tid eid success res = (db, ResultOutcome.executionIdMismatch) := by
    intro hne
    simp only [set_task_result, hf]
    rw [if_pos hne]
  have hstat : task.execution_id = eid → task.status ≠ Status.executing →
      set_task_result db tid eid success res = (db, ResultOutcome.statusNotExecuting) := by
    intro he hs
    simp only [set_task_result, hf]
    rw [if_neg (by simp [he]), if_pos hs]
  refine ⟨hmis, hstat, ?_⟩
  intro hs
  by_cases he : task.execution_id = eid
  · rw [hstat he hs]
    exact ⟨rfl, Or.inr rfl⟩
  · rw [hmis he]
    exact ⟨rfl, Or.inl rfl⟩

/-- A done row claimed in the past under token E9. -/
def staleTask : Task :=
  { baseTask with status := Status.done, execution_id := "E9" }

/-- C5 witness: the guards at a concrete stale row. -/
theorem report_guards_witness :
    report_guard_spec [staleTask] "t1" "E0" true "r" staleTask :=
  report_guards [staleTask] "t1" "E0" true "r" staleTask (by decide)

/-- An executing row with the given max_retry and retried counters, claimed
under token E. -/
def execTask (mr rt : Int) : Task :=
  { baseTask with
    status := Status.executing
    execution_id := "E"
    max_retry := mr
    retried := rt }

/-- C4 counterexample: with max_retry 2 and retried 1, a failure report
stores retried 2, which reaches max_retry, yet the status becomes pending,
not error, because the code compares the pre-increment counter against
max_retry; and with max_retry 0 a failure report stores retried 1, so
retried can exceed max_retry. -/
theorem retry_threshold_mismatch :
    (set_task_result [execTask 2 1] "t1" "E" false ""
        = ([{ execTask 2 1 with retried := 2, status := Status.pending }], ResultOutcome.ok)
      ∧ (2 : Int) ≥ 2) ∧
    (set_task_result [execTask 0 0] "t1" "E" false ""
        = ([{ execTask 0 0 with retried := 1, status := Status.error }], ResultOutcome.ok)
      ∧ ¬((1 : Int) ≤ 0)) := by
  decide

/-- The effect of a failure report: retried is incremented on the matched
row, and the status becomes error exactly when the incremented count
exceeds max_retry (equivalently, the pre-increment count has reached it),
and pending otherwise; consequently retried never exceeds max_retry plus
one. -/
def failure_report_spec (db : TaskDb) (tid eid res : String) (task : Task) : Prop :=
  set_task_result db tid eid false res =
    (db.map (fun t => if t.id == tid then
        { t with retried := task.retried + 1,
                 status := if task.retried ≥ task.max_retry then Status.error
                           else Status.pending } else t),
     ResultOutcome.ok) ∧
  ((if task.retried ≥ task.max_retry then Status.error else Status.pending) = Status.error
    ↔ task.max_retry < task.retried + 1) ∧
  (task.retried ≤ task.max_retry → task.retried + 1 ≤ task.max_retry + 1)

/-- C4 (amended): on a failure report, retried is incremented, and the
status becomes the terminal error state exactly when the incremented count
exceeds max_retry, that is when the pre-increment count had already reached
max_retry; otherwise the status becomes pending. Hence for rows satisfying
retried ≤ max_retry the invariant retried ≤ max_retry + 1, not
retried ≤ max_retry, holds after the report: the final failure stores
retried = max_retry + 1 together with status error. -/
theorem failure_report_policy (db : TaskDb) (tid eid res : String) (task : Task)
    (hf : findRow db tid = some task) (he : task.execution_id = eid)
    (hs : task.status = Status.executing) :
    failure_report_spec db tid eid res task := by
  unfold failure_report_spec
  refine ⟨set_task_result_failure_eq hf he hs res, ?_, ?_⟩
  · by_cases hge : task.retried ≥ task.max_retry
    · rw [if_pos hge]
      exact iff_of_true rfl (by omega)
    · rw [if_neg hge]
      exact iff_of_false (by decide) (by omega)
  · omega

/-- C4 witness: the failure policy at a concrete executing row. -/
theorem failure_report_policy_witness :
    failure_report_spec [execTask 3 0] "t1" "E" "r" (execTask 3 0) :=
  failure_report_policy [execTask 3 0] "t1" "E" "r" (execTask 3 0) (by decide) (by decide)
    (by decide)

theorem create_task_end_time_zero {db0 : TaskDb} {now0 : Int} {u0 q0 n0 d0 : String}
    {cb0 : Option String} {mr0 : Int} {ept0 : Option Int} {to0 : Int} {t0 : Task}
    (h : create_task db0 now0 u0 q0 n0 d0 cb0 mr0 ept0 to0
      = (db0 ++ [t0], CreateResult.ok t0.id)) :
    t0.execution_end_time = 0 := by
  simp only [create_task] at h
  by_cases hcb : ¬(cb0.getD "" = "") ∧ startsWithHttp (cb0.getD "") = false
  · rw [if_pos hcb] at h
    rw [Prod.mk.injEq] at h
    exact absurd h.2 (by simp)
  · rw [if_neg hcb] at h
    by_cases hto : to0 ≤ 0
    · rw [if_pos hto] at h
      rw [Prod.mk.injEq] at h
      exact absurd h.2 (by simp)
    · rw [if_neg hto] at h
      rw [Prod.mk.injEq] at h
      have h1 := List.append_cancel_left h.1
      injection h1 with h2 _
      rw [← h2]

/-- The frame of a successful result report: only status and task_result
are written on the matched row — every other column, in particular
execution_end_time and execution_id, is untouched; rows with another id are
untouched; every row inserted by create_task starts with
execution_end_time 0; and a row finalized to done with execution_end_time
still 0 satisfies the delete condition of cleanup for any cutoff computed
from a current time of at least days of seconds. -/
def success_report_spec (db : TaskDb) (tid eid res : String) (task : Task) : Prop :=
  set_task_result db tid eid true res =
    (db.map (fun t => if t.id == tid then
        { t with status := Status.done, task_result := res } else t),
     ResultOutcome.ok) ∧
  (∀ t : Task,
    ({ t with status := Status.done, task_result := res } : Task).id = t.id ∧
    ({ t with status := Status.done, task_result := res } : Task).queue = t.queue ∧
    ({ t with status := Status.done, task_result := res } : Task).name = t.name ∧
    ({ t with status := Status.done, task_result := res } : Task).callback = t.callback ∧
    ({ t with status := Status.done, task_result := res } : Task).timeout = t.timeout ∧
    ({ t with status := Status.done, task_result := res } : Task).max_retry = t.max_retry ∧
    ({ t with status := Status.done, task_result := res } : Task).retried = t.retried ∧
    ({ t with status := Status.done, task_result := res } : Task).creation_time
      = t.creation_time ∧
    ({ t with status := Status.done, task_result := res } : Task).execution_id
      = t.execution_id ∧
    ({ t with status := Status.done, task_result := res } : Task).execution_plan_time
      = t.execution_plan_time ∧
    ({ t with status := Status.done, task_result := res } : Task).execution_start_time
      = t.execution_start_time ∧
    ({ t with status := Status.done, task_result := res } : Task).execution_end_time
      = t.execution_end_time ∧
    ({ t with status := Status.done, task_result := res } : Task).execution_expired_time
      = t.execution_expired_time ∧
    ({ t with status := Status.done, task_result := res } : Task).version = t.version) ∧
  (∀ t ∈ db, t.id ≠ tid → t ∈ (set_task_result db tid eid true res).1) ∧
  (∀ (db0 : TaskDb) (now0 : Int) (u0 q0 n0 d0 : String) (cb0 : Option String)
      (mr0 : Int) (ept0 : Option Int) (to0 : Int) (t0 : Task),
    create_task db0 now0 u0 q0 n0 d0 cb0 mr0 ept0 to0
      = (db0 ++ [t0], CreateResult.ok t0.id) →
    t0.execution_end_time = 0) ∧
  (∀ (now2 days : Int), task.execution_end_time = 0 → 0 < now2 - days * 86400 →
    doneAndExpiredB (now2 - days * 86400)
      { task with status := Status.done, task_result := res } = true)

/-- C10: a successful result report writes only status and task_result;
execution_end_time and execution_id among all other columns are unchanged,
so a task finalized to done keeps execution_end_time at its initial value 0
and hence already lies before any retention cutoff computed from a current
time at least the retention window. -/
theorem success_report_frame (db : TaskDb) (tid eid res : String) (task : Task)
    (hf : findRow db tid = some task) (he : task.execution_id = eid)
    (hs : task.status = Status.executing) :
    success_report_spec db tid eid res task := by
  unfold success_report_spec
  refine ⟨set_task_result_success_eq hf he hs res, ?_, ?_, ?_, ?_⟩
  · intro t
    exact ⟨rfl, rfl, rfl, rfl, rfl, rfl, rfl, rfl, rfl, rfl, rfl, rfl, rfl, rfl⟩
  · intro t ht hne
    rw [set_task_result_success_eq hf he hs res]
    have := List.mem_map_of_mem
      (fun u => if u.id == tid then
        { u with status := Status.done, task_result := res } else u) ht
    simpa [hne] using this
  · intro db0 now0 u0 q0 n0 d0 cb0 mr0 ept0 to0 t0 h
    exact create_task_end_time_zero h
  · intro now2 days h0 hpos
    simp [doneAndExpiredB, h0, hpos]

/-- An executing row claimed under token E8, about to report success. -/
def finishingTask : Task :=
  { baseTask with status := Status.executing, execution_id := "E8" }

/-- C10 witness: the frame of a successful report at a concrete row. -/
theorem success_report_frame_witness :
    success_report_spec [finishingTask] "t1" "E8" "out" finishingTask :=
  success_report_frame [finishingTask] "t1" "E8" "out" finishingTask (by decide) (by decide)
    (by decide)

/-! The end-to-end lifecycle scenario with max_retry 1 and timeout 10. -/

/-- The id allocated at creation time 1000 with uuid hex u0. -/
def c3_I : String := next_str 1000 "u0"

/-- The first claim attempt, at time 1001 with fresh token T1. -/
def c3_attempt1 : Attempt := { current := 1001, eid := "T1", rand := 0, interfere := id }

/-- The second claim attempt, at time 1002 with fresh token T2. -/
def c3_attempt2 : Attempt := { current := 1002, eid := "T2", rand := 0, interfere := id }

/-- Creation of the task on queue q. -/
def c3_create : TaskDb × CreateResult := create_task [] 1000 "u0" "q" "t1" "x" none 1 none 10

/-- The table after creation. -/
def c3_db1 : TaskDb := c3_create.1

/-- The first claim. -/
def c3_fetch1 : TaskDb × Option FetchResult × List Rat × Nat :=
  fetch_task c3_db1 "q" c3_attempt1 c3_attempt1 c3_attempt1

/-- The table after the first claim. -/
def c3_db2 : TaskDb := c3_fetch1.1

/-- The first failure report, under token T1. -/
def c3_report1 : TaskDb × ResultOutcome := set_task_result c3_db2 c3_I "T1" false ""

/-- The table after the first failure report. -/
def c3_db3 : TaskDb := c3_report1.1

/-- The second claim. -/
def c3_fetch2 : TaskDb × Option FetchResult × List Rat × Nat :=
  fetch_task c3_db3 "q" c3_attempt2 c3_attempt2 c3_attempt2

/-- The table after the second claim. -/
def c3_db4 : TaskDb := c3_fetch2.1

/-- The second failure report, under token T2. -/
def c3_report2 : TaskDb × ResultOutcome := set_task_result c3_db4 c3_I "T2" false ""

/-- The table after the second failure report. -/
def c3_db5 : TaskDb := c3_report2.1

/-- C3: for a task created with max_retry 1 and timeout 10 on queue q,
creation returns an id I; the first claim returns task I with version 1 and
token T1; reporting failure with T1 sets status pending and retried 1; the
second claim returns task I with version 2 and token T2; reporting failure
with T2 sets status error with retried 2; and a further report with token
T2 fails with the protocol-violation error for a status that is no longer
executing, leaving the table unchanged. -/
theorem lifecycle_max_retry_one :
    c3_create.2 = CreateResult.ok c3_I ∧
    c3_fetch1.2.1 = some ⟨c3_I, "T1", "q", "t1", "x", 1⟩ ∧
    c3_report1.2 = ResultOutcome.ok ∧
    (findRow c3_db3 c3_I).map Task.status = some Status.pending ∧
    (findRow c3_db3 c3_I).map Task.retried = some 1 ∧
    c3_fetch2.2.1 = some ⟨c3_I, "T2", "q", "t1", "x", 2⟩ ∧
    c3_report2.2 = ResultOutcome.ok ∧
    (findRow c3_db5 c3_I).map Task.status = some Status.error ∧
    (findRow c3_db5 c3_I).map Task.retried = some 2 ∧
    (findRow c3_db5 c3_I).map Task.execution_id = some "T2" ∧
    set_task_result c3_db5 c3_I "T2" false "" = (c3_db5, ResultOutcome.statusNotExecuting) := by
  decide

/-! Validation in create_task. -/

/-- The validation behaviour of create_task: a nonempty callback without an
accepted scheme yields the invalid-callback error dict with no row
persisted, and a non-positive timeout yields an error dict of the same
error field with no row persisted. -/
def create_validation_spec (db : TaskDb) (now : Int) (uuidHex queue name data : String)
    (cb : Option String) (mr : Int) (ept : Option Int) (timeout : Int) : Prop :=
  (∀ c, cb = some c → ¬(c = "") → startsWithHttp c = false →
    create_task db now uuidHex queue name data cb mr ept timeout
      = (db, CreateResult.err "cannot_create_task" "invalid callback")) ∧
  (timeout ≤ 0 → ∃ d, create_task db now uuidHex queue name data cb mr ept timeout
      = (db, CreateResult.err "cannot_create_task" d))

/-- C7: for every input whose callback is nonempty and starts with neither
of the two accepted schemes, and for every input with timeout at most 0,
create_task returns the structured error value with its error field set,
instead of raising, and leaves the table unchanged. -/
theorem create_validation (db : TaskDb) (now : Int) (uuidHex queue name data : String)
    (cb : Option String) (mr : Int) (ept : Option Int) (timeout : Int) :
    create_validation_spec db now uuidHex queue name data cb mr ept timeout := by
  unfold create_validation_spec
  constructor
  · intro c hc hne hs
    subst hc
    simp only [create_task]
    rw [if_pos ⟨by simpa using hne, by simpa using hs⟩]
  · intro hto
    by_cases hcb : ¬((cb.getD "") = "") ∧ startsWithHttp (cb.getD "") = false
    · refine ⟨"invalid callback", ?_⟩
      simp only [create_task]
      rw [if_pos hcb]
    · refine ⟨"invalid timeout", ?_⟩
      simp only [create_task]
      rw [if_neg hcb, if_pos hto]

/-- C7 witness: a concrete rejected callback and a concrete rejected
timeout. -/
theorem create_validation_witness :
    create_task [] 1000 "u0" "q" "t" "x" (some "ftp://cb") 3 none 10
      = ([], CreateResult.err "cannot_create_task" "invalid callback") ∧
    (∃ d, create_task [] 1000 "u0" "q" "t" "x" none 3 none 0
      = ([], CreateResult.err "cannot_create_task" d)) :=
  ⟨(create_validation [] 1000 "u0" "q" "t" "x" (some "ftp://cb") 3 none 10).1
      "ftp://cb" rfl (by decide) (by decide),
   (create_validation [] 1000 "u0" "q" "t" "x" none 3 none 0).2 (by decide)⟩

/-! The retention sweep. -/

/-- A done row on queue a with execution_end_time 0. -/
def doneOldTask : Task :=
  { baseTask with queue := "a", status := Status.done }

/-- C9 counterexample: cleanup invoked with queue b specified still deletes
a done row of queue a past the cutoff — the executed delete statement does
not mention the queue at all. -/
theorem cleanup_queue_ignored :
    doneOldTask.queue = "a" ∧ ¬(doneOldTask.queue = "b") ∧
    doneOldTask.status = Status.done ∧
    doneOldTask.execution_end_time < 1000000 - 7 * 86400 ∧
    cleanup [doneOldTask] 1000000 (some "b") 7 = ([], 1) := by
  decide

/-- What cleanup does: it keeps exactly the rows that are not (done and
with execution_end_time strictly before now minus days of seconds), counts
the deleted rows, deletes every done row past the cutoff, keeps every row
in any other status and every done row at or within the cutoff, and is
entirely independent of the queue argument. -/
def cleanup_spec (db : TaskDb) (now : Int) (queue : Option String) (days : Int) : Prop :=
  (cleanup db now queue days).1
    = db.filter (fun t => !(doneAndExpiredB (now - days * 86400) t)) ∧
  (cleanup db now queue days).2
    = (db.filter (doneAndExpiredB (now - days * 86400))).length ∧
  (∀ t ∈ db, t.status = Status.done → t.execution_end_time < now - days * 86400 →
    t ∉ (cleanup db now queue days).1) ∧
  (∀ t ∈ db, t.status ≠ Status.done ∨ ¬(t.execution_end_time < now - days * 86400) →
    t ∈ (cleanup db now queue days).1) ∧
  (∀ queue2, cleanup db now queue2 days = cleanup db now queue days)

/-- C9 (amended): the retention sweep deletes exactly the rows with status
done and execution_end_time strictly older than now minus the retention
window (7 days by default); rows in any other status, and done rows within
the window, are untouched; and the deletion is unconditioned on queue even
when a queue is specified — the queue parameter of cleanup is ignored. -/
theorem cleanup_retention (db : TaskDb) (now : Int) (queue : Option String) (days : Int) :
    cleanup_spec db now queue days := by
  unfold cleanup_spec cleanup
  refine ⟨rfl, rfl, ?_, ?_, fun _ => rfl⟩
  · intro t ht hdone hold hmem
    rw [List.mem_filter] at hmem
    have hb : doneAndExpiredB (now - days * 86400) t = true := by
      simp [doneAndExpiredB, hdone, hold]
    rw [hb] at hmem
    exact absurd hmem.2 (by decide)
  · intro t ht hcond
    rw [List.mem_filter]
    refine ⟨ht, ?_⟩
    have hb : doneAndExpiredB (now - days * 86400) t = false := by
      rcases hcond with hnd | hnl
      · simp [doneAndExpiredB, hnd]
      · simp [doneAndExpiredB, hnl]
    rw [hb]
    rfl

/-- C9 witness: the sweep characterization at a concrete table. -/
theorem cleanup_retention_witness : cleanup_spec [doneOldTask] 1000000 none 7 :=
  cleanup_retention [doneOldTask] 1000000 none 7

/-! Successful creation and the identifier format. -/

/-- What a valid creation persists and returns: exactly one row is appended,
with status pending, version 0, retried 0, empty execution_id, creation
time now, execution_end_time 0, and the id db.next_str produced, which is
also the returned value. -/
def create_ok_spec (db : TaskDb) (now : Int) (uuidHex queue name data : String)
    (cb : Option String) (mr : Int) (ept : Option Int) (timeout : Int) : Prop :=
  ∃ task : Task,
    create_task db now uuidHex queue name data cb mr ept timeout
      = (db ++ [task], CreateResult.ok task.id) ∧
    task.status = Status.pending ∧ task.version = 0 ∧ task.retried = 0 ∧
    task.execution_id = "" ∧ task.creation_time = now ∧
    task.execution_end_time = 0 ∧ task.id = next_str now uuidHex

/-- The creation contract together with the identifier format: the id is the
15-character zero-padded millisecond timestamp followed by the random hex
and "000", so its first 15 characters are the creation timestamp in
milliseconds, it decomposes uniquely, and two ids minted at the same
millisecond from different random suffixes differ. -/
def create_success_spec (db : TaskDb) (now : Int) (uuidHex queue name data : String)
    (cb : Option String) (mr : Int) (ept : Option Int) (timeout : Int) : Prop :=
  create_ok_spec db now uuidHex queue name data cb mr ept timeout ∧
  next_str now uuidHex = (pad15 (toString (now * 1000)) ++ uuidHex) ++ "000" ∧
  (pad15 (toString (now * 1000))).data <+: (next_str now uuidHex).data ∧
  ((toString (now * 1000)).length ≤ 15 → (pad15 (toString (now * 1000))).length = 15) ∧
  (0 ≤ now → now * 1000 < 10 ^ 15 → (toString (now * 1000)).length ≤ 15) ∧
  (∀ u2 : String, next_str now u2 = next_str now uuidHex → u2 = uuidHex)

/-- The row that create_task inserts for the given arguments. -/
def created_task (now : Int) (uuidHex queue name data : String) (cb : Option String)
    (mr : Int) (ept : Option Int) (timeout : Int) : Task :=
  { id := next_str now uuidHex
    queue := if queue = "" then _DEFAULT_QUEUE else queue
    name := if name = "" then "unamed" else name
    callback := cb.getD ""
    timeout := timeout
    status := Status.pending
    max_retry := if mr < 0 then 0 else mr
    retried := 0
    creation_time := now
    execution_id := ""
    execution_plan_time := ept.getD now
    execution_start_time := 0
    execution_end_time := 0
    execution_expired_time := 0
    version := 0
    task_data := data
    task_result := "null" }

/-- C8: for every valid input (callback empty or http or https prefixed,
timeout positive), create_task persists exactly one row with status
pending, version 0, retried 0, empty execution_id, and an id whose prefix
is the creation timestamp in milliseconds zero-padded to the fixed width
15 (hence time-sortable) followed by the random suffix whose uniqueness
makes the id globally unique, and returns that id. -/
theorem create_success (db : TaskDb) (now : Int) (uuidHex queue name data : String)
    (cb : Option String) (mr : Int) (ept : Option Int) (timeout : Int)
    (hcb : cb.getD "" = "" ∨ startsWithHttp (cb.getD "") = true) (ht : 0 < timeout) :
    create_success_spec db now uuidHex queue name data cb mr ept timeout := by
  have hnotcb : ¬(¬(cb.getD "" = "") ∧ startsWithHttp (cb.getD "") = false) := by
    rcases hcb with h | h
    · intro hc
      exact hc.1 h
    · intro hc
      rw [h] at hc
      exact absurd hc.2 (by decide)
  have hnt : ¬(timeout ≤ 0) := by omega
  unfold create_success_spec
  refine ⟨?_, rfl, ?_, ?_, ?_, ?_⟩
  · refine ⟨created_task now uuidHex queue name data cb mr ept timeout,
      ?_, rfl, rfl, rfl, rfl, rfl, rfl, rfl⟩
    simp only [create_task]
    rw [if_neg hnotcb, if_neg hnt]
    rfl
  · unfold next_str
    rw [String.data_append, String.data_append, List.append_assoc]
    exact List.prefix_append _ _
  · intro h
    unfold pad15
    rw [String.length_append, String.length_mk, List.length_replicate]
    omega
  · intro h0 hlt
    have h00 : (0 : Int) ≤ now * 1000 := by positivity
    obtain ⟨m, hm⟩ := Int.eq_ofNat_of_zero_le h00
    rw [hm]
    have hmlt : m < 10 ^ 15 := by
      rw [hm] at hlt
      exact_mod_cast hlt
    exact Nat.repr_length m 15 (by norm_num) hmlt
  · intro u2 h
    unfold next_str at h
    have hdata := congrArg String.data h
    simp only [String.data_append] at hdata
    have h1 := List.append_cancel_right hdata
    have h2 := List.append_cancel_left h1
    exact String.ext h2

/-- C8 witness: a valid creation at a concrete input. -/
theorem create_success_witness :
    create_success_spec [] 1000 "u0" "q" "t1" "x" none 3 none 60 :=
  create_success [] 1000 "u0" "q" "t1" "x" none 3 none 60 (Or.inl rfl) (by decide)

end Transwarp
